import Mathlib

/-!
Verification development for the curve repository sources
`curvefs/src/metaserver/copyset/meta_operator.cpp` (metaserver operator
pipeline, MOP) and `curvefs/src/client/s3/disk_cache_write.cpp`
(write-back disk cache uploader, WBU).

The C++ code is embedded shallowly: each function is translated into a
pure Lean function over explicit state; collaborator callbacks (object
store retries, closure guards) become explicit event/effect records.
-/

/- ===================== MOP: data model ===================== -/

/-- Status codes from the metaserver proto that the embedded code paths
touch.  NOT_FOUND and PARAM_ERROR stand for arbitrary non-OK metastore
results. -/
inductive MetaStatusCode where
  | OK
  | NOT_FOUND
  | PARAM_ERROR
  | UNKNOWN_ERROR
  | REDIRECTED
  | RPC_STREAM_ERROR
deriving DecidableEq

/-- Leader lease status tags (braft LeaderLeaseStatus, see spec data model). -/
inductive LeaseStatus where
  | leaseLeader
  | leaseExpired
  | leaseNotReady
  | leaseDisabled
deriving DecidableEq

/-- Modelled from the spec: the consensus-node predicate is_lease_leader
(implemented in copyset_node, which is not under src/) recognizes the
LeaseLeader tag of the lease status. -/
def isLeaseLeader : LeaseStatus → Bool
  | LeaseStatus.leaseLeader => true
  | _ => false

/-- Modelled from the spec: the consensus-node predicate is_lease_expired
(implemented in copyset_node, which is not under src/) recognizes the
LeaseExpired tag of the lease status. -/
def isLeaseExpired : LeaseStatus → Bool
  | LeaseStatus.leaseExpired => true
  | _ => false

/-- The 19 operator variants instantiated in meta_operator.cpp. -/
inductive OperatorType where
  | GetDentry
  | ListDentry
  | CreateDentry
  | DeleteDentry
  | GetInode
  | BatchGetInodeAttr
  | BatchGetXAttr
  | CreateInode
  | UpdateInode
  | GetOrModifyS3ChunkInfo
  | DeleteInode
  | CreateRootInode
  | CreateManageInode
  | CreatePartition
  | DeletePartition
  | PrepareRenameTx
  | GetVolumeExtent
  | UpdateVolumeExtent
  | UpdateDeallocatableBlockGroup
deriving DecidableEq

/-- OPERATOR_CAN_BY_PASS_PROPOSE is instantiated exactly for the six
read-only operators (meta_operator.cpp lines 132-145); the base class
default returns false for every other variant. -/
def canBypassPropose : OperatorType → Bool
  | OperatorType.GetDentry => true
  | OperatorType.ListDentry => true
  | OperatorType.GetInode => true
  | OperatorType.BatchGetInodeAttr => true
  | OperatorType.BatchGetXAttr => true
  | OperatorType.GetVolumeExtent => true
  | _ => false

/-- The 12 mutating variants instantiated by OPERATOR_ON_APPLY
(meta_operator.cpp lines 174-191, minus the five read-only ones). -/
def isMutatingOnApply : OperatorType → Bool
  | OperatorType.CreateDentry => true
  | OperatorType.DeleteDentry => true
  | OperatorType.CreateInode => true
  | OperatorType.UpdateInode => true
  | OperatorType.DeleteInode => true
  | OperatorType.CreateRootInode => true
  | OperatorType.CreateManageInode => true
  | OperatorType.CreatePartition => true
  | OperatorType.DeletePartition => true
  | OperatorType.PrepareRenameTx => true
  | OperatorType.UpdateVolumeExtent => true
  | OperatorType.UpdateDeallocatableBlockGroup => true
  | _ => false

/-- The five read operators that share the OPERATOR_ON_APPLY macro body
and also enable the lease fast path (GetVolumeExtent has a custom
OnApply and is not among them). -/
def isLeaseReadMacroOp : OperatorType → Bool
  | OperatorType.GetDentry => true
  | OperatorType.ListDentry => true
  | OperatorType.GetInode => true
  | OperatorType.BatchGetInodeAttr => true
  | OperatorType.BatchGetXAttr => true
  | _ => false

/- ===================== MOP: Propose ===================== -/

/-- Observable outcome of MetaOperator::Propose (plus ProposeTask /
FastApplyTask), meta_operator.cpp lines 58-130.  Field order:
statuscode (what Redirect / OnFailed wrote on the response, none if
untouched), proposeTaskCalls (entries into ProposeTask), nodeProposeCalls
(node_->Propose invocations, i.e. log entries produced), applyQueuePushes
(apply-queue Push invocations from FastApplyTask), doneRuns (completion
closure runs performed by Propose itself, via the brpc ClosureGuard),
guardReleased (the guard was released, handing closure ownership to the
fast-apply or log path). -/
structure ProposeResult where
  statuscode : Option MetaStatusCode
  proposeTaskCalls : Nat
  nodeProposeCalls : Nat
  applyQueuePushes : Nat
  doneRuns : Nat
  guardReleased : Bool
deriving DecidableEq

/-- MetaOperator::Propose, meta_operator.cpp lines 58-94, inlining
ProposeTask (98-118: encode, then node_->Propose) and FastApplyTask
(120-130: push OnApply onto the apply queue).  encodeOk models the
return value of RaftLogCodec::Encode. -/
def propose (ty : OperatorType) (isLeaderTerm : Bool) (lease : LeaseStatus)
    (encodeOk : Bool) : ProposeResult :=
  if isLeaderTerm = false then
    ⟨some MetaStatusCode.REDIRECTED, 0, 0, 0, 1, false⟩
  else if canBypassPropose ty && isLeaseLeader lease then
    ⟨none, 0, 0, 1, 0, true⟩
  else if canBypassPropose ty && isLeaseExpired lease then
    ⟨some MetaStatusCode.REDIRECTED, 0, 0, 0, 1, false⟩
  else if encodeOk then
    ⟨none, 1, 1, 0, 0, true⟩
  else
    ⟨some MetaStatusCode.UNKNOWN_ERROR, 1, 0, 0, 1, false⟩

/- ===================== MOP: OnApply ===================== -/

/-- The consensus node state visible to OnApply: its applied index. -/
structure NodeState where
  appliedIndex : Nat
deriving DecidableEq

/-- Modelled from the spec: node.update_applied_index (implemented in
copyset_node, not under src/) advances the applied index monotonically,
i.e. keeps the maximum of the old value and the argument. -/
def updateAppliedIndexSpec (s i : Nat) : Nat := max s i

/-- Observable outcome of the OPERATOR_ON_APPLY macro body.  Field order:
node (node state after the call), appliedindexField (what
set_appliedindex wrote on the response, none if untouched), updateCalls
(UpdateAppliedIndex invocations), doneRuns (completion closure runs, via
the ClosureGuard), metricSuccess (the success flag passed to
OnOperatorComplete), metricType (the OperatorType tag passed to the
metric sink). -/
structure MacroApplyResult where
  node : NodeState
  appliedindexField : Option Nat
  updateCalls : Nat
  doneRuns : Nat
  metricSuccess : Bool
  metricType : OperatorType
deriving DecidableEq

/-- The OPERATOR_ON_APPLY macro body, meta_operator.cpp lines 147-172.
The metastore dispatch is abstracted by its returned status; the node
UpdateAppliedIndex implementation (outside src/) is the parameter upd,
mapping (old applied index, index) to the new applied index. -/
def operatorOnApply (ty : OperatorType) (upd : Nat → Nat → Nat)
    (st : NodeState) (status : MetaStatusCode) (index : Nat) : MacroApplyResult :=
  if status = MetaStatusCode.OK then
    ⟨⟨upd st.appliedIndex index⟩,
     some (max index (upd st.appliedIndex index)), 1, 1, true, ty⟩
  else
    ⟨st, none, 0, 1, false, ty⟩

/-- FastApplyTask (meta_operator.cpp lines 120-130) binds OnApply to the
applied index sampled from the node at enqueue time
(node_->GetAppliedIndex()). -/
def fastApplyOnApply (ty : OperatorType) (upd : Nat → Nat → Nat)
    (st : NodeState) (status : MetaStatusCode) : MacroApplyResult :=
  operatorOnApply ty upd st status st.appliedIndex

/-- Observable outcome of GetOrModifyS3ChunkInfoOperator::OnApply,
meta_operator.cpp lines 197-244.  Field order: node, appliedindexField,
statusOverride (RPC_STREAM_ERROR written by this function on accept
failure, none otherwise), doneRuns, streamSends
(SendS3ChunkInfoByStream invocations, performed after the closure guard
scope ends). -/
structure S3ApplyResult where
  node : NodeState
  appliedindexField : Option Nat
  statusOverride : Option MetaStatusCode
  doneRuns : Nat
  streamSends : Nat
deriving DecidableEq

/-- GetOrModifyS3ChunkInfoOperator::OnApply, meta_operator.cpp lines
197-244.  mstatus is the metastore result, returnMap and
supportStreaming the request flags, acceptOk whether
streamServer->Accept returned a connection. -/
def s3OnApply (upd : Nat → Nat → Nat) (st : NodeState)
    (mstatus : MetaStatusCode) (returnMap supportStreaming acceptOk : Bool)
    (index : Nat) : S3ApplyResult :=
  if mstatus = MetaStatusCode.OK then
    if returnMap && supportStreaming then
      if acceptOk then
        ⟨⟨upd st.appliedIndex index⟩,
         some (max index (upd st.appliedIndex index)), none, 1, 1⟩
      else
        ⟨⟨upd st.appliedIndex index⟩,
         some (max index (upd st.appliedIndex index)),
         some MetaStatusCode.RPC_STREAM_ERROR, 1, 0⟩
    else
      ⟨⟨upd st.appliedIndex index⟩,
       some (max index (upd st.appliedIndex index)), none, 1, 0⟩
  else
    ⟨st, none, none, 1, 0⟩

/-- Events observable during GetVolumeExtentOperator::OnApply: the
completion closure running, and one extent slice pushed on the stream. -/
inductive GVEEvent where
  | doneRun
  | streamPush (slice : Nat)
deriving DecidableEq

/-- The GetVolumeExtent response: statuscode, appliedindex (none if
set_appliedindex was not called), slices (extent slice list, each slice
abstracted as a Nat). -/
structure GVEResponse where
  statuscode : MetaStatusCode
  appliedindex : Option Nat
  slices : List Nat
deriving DecidableEq

/-- Result of GetVolumeExtentOperator::OnApply: final response plus the
ordered trace of closure runs and stream pushes. -/
structure GVEResult where
  resp : GVEResponse
  events : List GVEEvent
deriving DecidableEq

/-- GetVolumeExtentOperator::OnApply, meta_operator.cpp lines 246-292.
The metastore call fills the response with mstatus and mslices; if
streaming is requested the slices are swapped out and cleared, the
stream accepted (acceptOk), done->Run() executed, and only then the
extents pushed by StreamingSendVolumeExtent. -/
def gveOnApply (index : Nat) (mstatus : MetaStatusCode) (mslices : List Nat)
    (streaming acceptOk : Bool) : GVEResult :=
  if mstatus = MetaStatusCode.OK then
    if streaming = false then
      ⟨⟨mstatus, some index, mslices⟩, [GVEEvent.doneRun]⟩
    else if acceptOk then
      ⟨⟨mstatus, some index, []⟩,
       GVEEvent.doneRun :: mslices.map GVEEvent.streamPush⟩
    else
      ⟨⟨MetaStatusCode.RPC_STREAM_ERROR, some index, []⟩, [GVEEvent.doneRun]⟩
  else
    ⟨⟨mstatus, none, mslices⟩, [GVEEvent.doneRun]⟩

/- ===================== WBU: upload callback ===================== -/

/-- Cumulative effects of the PutObjectAsyncCallBack built by
DiskCacheWrite::UploadFile (disk_cache_write.cpp lines 141-168) over a
whole retry sequence.  Field order: removes (RemoveFile invocations on
the staged key), frees (posixWrapper free invocations on the owned
buffer), signals (syncTask Signal invocations), resubmits (UploadAsync
re-submissions of the same context on failure). -/
structure CbEffects where
  removes : Nat
  frees : Nat
  signals : Nat
  resubmits : Nat
deriving DecidableEq

/-- Runs the UploadFile completion callback over the sequence of return
codes the object-store client delivers, one per attempt
(disk_cache_write.cpp lines 141-168).  A return code >= 0 is success:
the callback records metrics, removes the staged file, frees the owned
buffer and signals the barrier when one was given, then returns.  A
negative code re-submits the identical context, so the callback runs
again with the next return code.  An exhausted list means the last
re-submission is still pending (no terminal callback yet). -/
def uploadCallbackRun (hasBarrier : Bool) : List Int → CbEffects
  | [] => ⟨0, 0, 0, 0⟩
  | rc :: rest =>
    if 0 ≤ rc then
      ⟨1, 1, if hasBarrier then 1 else 0, 0⟩
    else
      ⟨(uploadCallbackRun hasBarrier rest).removes,
       (uploadCallbackRun hasBarrier rest).frees,
       (uploadCallbackRun hasBarrier rest).signals,
       (uploadCallbackRun hasBarrier rest).resubmits + 1⟩

/- ===================== WBU: ReadFile ===================== -/

/-- Environment of one DiskCacheWrite::ReadFile call.  content is the
byte list of the staged file (stat reports its length as the size);
readLen is none when posix read returns a negative value, and some k
when it reads k bytes. -/
structure ReadEnv where
  fileExists : Bool
  statOk : Bool
  content : List Nat
  openOk : Bool
  mallocOk : Bool
  memsetOk : Bool
  readLen : Option Nat
deriving DecidableEq

/-- Result of ReadFile.  Field order: ret (the returned int), buf (the
buffer handed back through the out parameter on success; each cell is
none while uninitialized), sizeOut (what was stored through the size out
parameter; the code stores it right after stat), frees (buffer frees
performed inside ReadFile), closes (close invocations). -/
structure RFResult where
  ret : Int
  buf : Option (List (Option Nat))
  sizeOut : Option Nat
  frees : Nat
  closes : Nat
deriving DecidableEq

/-- The buffer after malloc(fileSize + 1) and
memset(buffer, char 48, fileSize) in ReadFile (disk_cache_write.cpp
lines 85-99): the code passes the character digit-zero (ASCII 48), not
the zero byte, and sets only the first fileSize cells, leaving the extra
cell uninitialized. -/
def readFileInitBuffer (len : Nat) : List (Option Nat) :=
  List.replicate len (some 48) ++ [none]

/-- The buffer after read(fd, buffer, fileSize) copied k bytes of the
file content over the initialized buffer. -/
def readOverwrite (buf : List (Option Nat)) (content : List Nat) (k : Nat) :
    List (Option Nat) :=
  (content.take k).map some ++ buf.drop k

/-- DiskCacheWrite::ReadFile, disk_cache_write.cpp lines 59-118. -/
def readFile (env : ReadEnv) : RFResult :=
  if env.fileExists = false then ⟨-1, none, none, 0, 0⟩
  else if env.statOk = false then ⟨-1, none, none, 0, 0⟩
  else if env.openOk = false then ⟨-1, none, some env.content.length, 0, 0⟩
  else if env.mallocOk = false then ⟨-1, none, some env.content.length, 0, 1⟩
  else if env.memsetOk = false then ⟨-1, none, some env.content.length, 1, 1⟩
  else
    match env.readLen with
    | none => ⟨-1, none, some env.content.length, 1, 1⟩
    | some k0 =>
      if min k0 env.content.length < env.content.length then
        ⟨-1, none, some env.content.length, 1, 1⟩
      else
        ⟨0,
         some (readOverwrite (readFileInitBuffer env.content.length)
                env.content env.content.length),
         some env.content.length, 0, 1⟩

/- ===================== WBU: GetUploadFile ===================== -/

/-- Result of DiskCacheWrite::GetUploadFile.  Field order: ret (the
returned int, always the size of the output list except on the
empty-queue early return), queue (waitUpload_ afterwards), out (the
toUpload list of the caller afterwards). -/
structure GUFResult where
  ret : Nat
  queue : List String
  out : List String
deriving DecidableEq

/-- DiskCacheWrite::GetUploadFile, disk_cache_write.cpp lines 188-208.
vno abstracts curvefs::common::s3util::ValidNameOfInode (applied to the
inode filter and a file name; the objectPrefix argument is folded into
vno).  list remove_if traverses in order, appending each matching name
to the output list and removing it from the queue. -/
def getUploadFile (vno : String → String → Bool) (inode : String)
    (queue out : List String) : GUFResult :=
  if queue = [] then ⟨0, queue, out⟩
  else if inode = "" then ⟨queue.length, out, queue⟩
  else
    ⟨(out ++ queue.filter (fun f => vno inode f)).length,
     queue.filter (fun f => !(vno inode f)),
     out ++ queue.filter (fun f => vno inode f)⟩

/- ===================== WBU: directory enumeration ===================== -/

/-- A directory tree as readdir exposes it: an entry is a regular file
(d_type == 8) or a directory with named entries, in readdir order. -/
inductive FsTree where
  | file : FsTree
  | dir : List (String × FsTree) → FsTree

/-- Models strncmp(d_name, dot-string, 1) == 0: true iff the first
character of the name is the dot. -/
def startsWithDot (name : String) : Bool :=
  match name.data with
  | [] => false
  | c :: _ => c == '.'

/-- Models strncmp(d_name, dot-dot-string, 2) == 0: true iff the first
two characters of the name are dots. -/
def startsWithDotDot (name : String) : Bool :=
  match name.data with
  | c1 :: c2 :: _ => c1 == '.' && c2 == '.'
  | _ => false

/-- The skip condition of the listDir lambda, disk_cache_write.cpp lines
357-359. -/
def entrySkipped (name : String) : Bool :=
  startsWithDot name || startsWithDotDot name

/-- The listDir lambda of DiskCacheWrite::UploadAllCacheWriteFile,
disk_cache_write.cpp lines 350-380, applied to the entries of one
directory: skipped entries are dropped, a regular file contributes its
bare d_name (the basename, not a relative path), and any other entry is
descended as a directory (none models the false return when a descent
fails, i.e. opendir on a non-directory).  closedir is assumed to
succeed. -/
def listEntries : List (String × FsTree) → Option (List String)
  | [] => some []
  | (name, FsTree.file) :: rest =>
    if entrySkipped name then listEntries rest
    else Option.map (fun xs => name :: xs) (listEntries rest)
  | (name, FsTree.dir es) :: rest =>
    if entrySkipped name then listEntries rest
    else
      match listEntries es, listEntries rest with
      | some ys, some xs => some (ys ++ xs)
      | _, _ => none

/-- The enumeration the claim describes, written from its words: skip
exactly the two entries dot and dot-dot, collect regular files only,
and record each file under its full relative path from the root (pre is
the accumulated path). -/
def listEntriesClaim (pre : String) : List (String × FsTree) → List String
  | [] => []
  | (name, FsTree.file) :: rest =>
    if name = "." ∨ name = ".." then listEntriesClaim pre rest
    else (pre ++ name) :: listEntriesClaim pre rest
  | (name, FsTree.dir es) :: rest =>
    if name = "." ∨ name = ".." then listEntriesClaim pre rest
    else listEntriesClaim (pre ++ name ++ "/") es ++ listEntriesClaim pre rest

/-- x is the d_name of a regular-file entry reachable in the tree
without passing through a skipped entry. -/
def hasRegularBasename (x : String) : List (String × FsTree) → Bool
  | [] => false
  | (name, FsTree.file) :: rest =>
    (!entrySkipped name && name == x) || hasRegularBasename x rest
  | (name, FsTree.dir es) :: rest =>
    (!entrySkipped name && hasRegularBasename x es) || hasRegularBasename x rest

/-- Concrete directory tree separating the embedded enumeration from the
claimed one: a dot-prefixed regular file (neither dot nor dot-dot) and a
regular file inside a subdirectory. -/
def exTree : List (String × FsTree) :=
  [(".hidden", FsTree.file), ("sub", FsTree.dir [("f", FsTree.file)])]

/- ===================== helper lemmas ===================== -/

theorem count_doneRun_map_push (l : List Nat) :
    (l.map GVEEvent.streamPush).count GVEEvent.doneRun = 0 := by
  rw [List.count_eq_zero]
  intro h
  rcases List.mem_map.mp h with ⟨s, hs, heq⟩
  exact GVEEvent.noConfusion heq

theorem listEntries_sound : ∀ (l : List (String × FsTree)) (ns : List String),
    listEntries l = some ns → ∀ x, x ∈ ns → hasRegularBasename x l = true := by
  intro l
  induction l using listEntries.induct with
  | case1 =>
    intro ns hns x hx
    simp [listEntries] at hns
    subst hns
    simp at hx
  | case2 name rest hskip ih =>
    intro ns hns x hx
    rw [listEntries, if_pos hskip] at hns
    simp [hasRegularBasename, hskip, ih ns hns x hx]
  | case3 name rest hskip ih =>
    intro ns hns x hx
    rw [listEntries, if_neg hskip] at hns
    match hr : listEntries rest with
    | none => rw [hr] at hns; simp at hns
    | some xs =>
      rw [hr] at hns
      simp at hns
      subst hns
      rcases List.mem_cons.mp hx with h | h
      · subst h
        simp [hasRegularBasename, Bool.not_eq_true] at hskip ⊢
        simp [hskip]
      · simp [hasRegularBasename, ih xs hr x h]
  | case4 name es rest hskip ih =>
    intro ns hns x hx
    rw [listEntries, if_pos hskip] at hns
    simp [hasRegularBasename, hskip, ih ns hns x hx]
  | case5 name es rest hskip ys xs hr hes ihes ihrest =>
    intro ns hns x hx
    rw [listEntries, if_neg hskip, hes, hr] at hns
    simp at hns
    subst hns
    rcases List.mem_append.mp hx with h | h
    · simp [hasRegularBasename, Bool.not_eq_true] at hskip ⊢
      simp [hskip, ihes ys hes x h]
    · simp [hasRegularBasename, ihrest xs hr x h]
  | case6 name es rest hskip hnone ihes ihrest =>
    intro ns hns x hx
    rw [listEntries, if_neg hskip] at hns
    match hes : listEntries es, hr : listEntries rest with
    | none, _ => rw [hes] at hns; simp at hns
    | some ys, none => rw [hes, hr] at hns; simp at hns
    | some ys, some xs => exact absurd trivial (fun _ => hnone ys xs hes hr)

/- ===================== claim theorems ===================== -/

/-- Claim C1: for every read-only operator (the six with CanBypassPropose
true) whose Propose runs while the node is leader for the current term,
a LeaseLeader lease status produces no log entry (ProposeTask is never
entered, node Propose is never called) and enqueues exactly one
fast-apply task on the apply queue, while a LeaseExpired lease status
sets REDIRECTED on the response and neither proposes nor applies
anything. -/
theorem claim1_readonly_lease_propose :
    ∀ (ty : OperatorType) (encodeOk : Bool), canBypassPropose ty = true →
    propose ty true LeaseStatus.leaseLeader encodeOk = ⟨none, 0, 0, 1, 0, true⟩
    ∧ propose ty true LeaseStatus.leaseExpired encodeOk
        = ⟨some MetaStatusCode.REDIRECTED, 0, 0, 0, 1, false⟩ := by
  intro ty e h
  constructor <;> simp [propose, h, isLeaseLeader, isLeaseExpired]

/-- Witness for claim C1 at the GetInode operator. -/
theorem claim1_witness :
    propose OperatorType.GetInode true LeaseStatus.leaseLeader true
      = ⟨none, 0, 0, 1, 0, true⟩
    ∧ propose OperatorType.GetInode true LeaseStatus.leaseExpired true
        = ⟨some MetaStatusCode.REDIRECTED, 0, 0, 0, 1, false⟩ :=
  claim1_readonly_lease_propose OperatorType.GetInode true rfl

/-- Claim C2: for every mutating operator whose OnApply gets metastore
result OK, UpdateAppliedIndex(index) is called once, the response
applied index is set to max(index, applied index reported after the
update), and, assuming the node update is monotone (the updated value is
at least the argument), both the node applied index after the call and
the response applied index are at least index. -/
theorem claim2_mutating_applied_index :
    ∀ (ty : OperatorType) (upd : Nat → Nat → Nat) (st : NodeState) (index : Nat),
    isMutatingOnApply ty = true →
    (∀ s i, i ≤ upd s i) →
    (operatorOnApply ty upd st MetaStatusCode.OK index).updateCalls = 1
    ∧ (operatorOnApply ty upd st MetaStatusCode.OK index).appliedindexField
        = some (max index (upd st.appliedIndex index))
    ∧ index ≤ (operatorOnApply ty upd st MetaStatusCode.OK index).node.appliedIndex
    ∧ (∀ v, (operatorOnApply ty upd st MetaStatusCode.OK index).appliedindexField = some v
        → index ≤ v) := by
  intro ty upd st index _ hmono
  refine ⟨by simp [operatorOnApply], by simp [operatorOnApply], ?_, ?_⟩
  · simpa [operatorOnApply] using hmono st.appliedIndex index
  · intro v hv
    simp [operatorOnApply] at hv
    subst hv
    exact Nat.le_max_left _ _

/-- Witness for claim C2 at CreateInode with the spec-modelled max
update, prior applied index 5 and commit index 7. -/
theorem claim2_witness :
    (operatorOnApply OperatorType.CreateInode updateAppliedIndexSpec ⟨5⟩
        MetaStatusCode.OK 7).updateCalls = 1
    ∧ (operatorOnApply OperatorType.CreateInode updateAppliedIndexSpec ⟨5⟩
        MetaStatusCode.OK 7).appliedindexField
        = some (max 7 (updateAppliedIndexSpec 5 7))
    ∧ 7 ≤ (operatorOnApply OperatorType.CreateInode updateAppliedIndexSpec ⟨5⟩
        MetaStatusCode.OK 7).node.appliedIndex
    ∧ (∀ v, (operatorOnApply OperatorType.CreateInode updateAppliedIndexSpec ⟨5⟩
        MetaStatusCode.OK 7).appliedindexField = some v → 7 ≤ v) :=
  claim2_mutating_applied_index OperatorType.CreateInode updateAppliedIndexSpec ⟨5⟩ 7
    rfl (fun s i => Nat.le_max_right s i)

/-- Claim C3: on every terminating path the completion closure runs
exactly once: Propose runs it exactly once itself unless it released the
guard to a handoff path (fast apply or log), and each OnApply variant
(the macro body, GetOrModifyS3ChunkInfo, GetVolumeExtent including its
streaming-success path) runs the closure it received exactly once. -/
theorem claim3_closure_exactly_once :
    (∀ (ty : OperatorType) (isL : Bool) (lease : LeaseStatus) (e : Bool),
       (propose ty isL lease e).doneRuns
         = if (propose ty isL lease e).guardReleased then 0 else 1)
    ∧ (∀ (ty : OperatorType) (upd : Nat → Nat → Nat) (st : NodeState)
         (status : MetaStatusCode) (index : Nat),
       (operatorOnApply ty upd st status index).doneRuns = 1)
    ∧ (∀ (upd : Nat → Nat → Nat) (st : NodeState) (mstatus : MetaStatusCode)
         (rm ss aok : Bool) (index : Nat),
       (s3OnApply upd st mstatus rm ss aok index).doneRuns = 1)
    ∧ (∀ (index : Nat) (mstatus : MetaStatusCode) (mslices : List Nat)
         (streaming aok : Bool),
       (gveOnApply index mstatus mslices streaming aok).events.count GVEEvent.doneRun
         = 1) := by
  refine ⟨?_, ?_, ?_, ?_⟩
  · intro ty isL lease e
    cases isL <;> cases lease <;> cases e <;>
      cases h : canBypassPropose ty <;>
      simp [propose, isLeaseLeader, isLeaseExpired, h]
  · intro ty upd st status index
    by_cases h : status = MetaStatusCode.OK <;> simp [operatorOnApply, h]
  · intro upd st mstatus rm ss aok index
    by_cases h : mstatus = MetaStatusCode.OK <;>
      cases rm <;> cases ss <;> cases aok <;> simp [s3OnApply, h]
  · intro index mstatus mslices streaming aok
    by_cases h : mstatus = MetaStatusCode.OK <;>
      cases streaming <;> cases aok <;>
      simp [gveOnApply, h, List.count_cons, count_doneRun_map_push]

/-- Claim C4: when Propose takes the propose-through-log path (leader
for the term, and either not a bypass operator or lease not-ready /
disabled) and the codec fails to encode, the response status code is set
to UNKNOWN_ERROR, node Propose is never called, and the completion
closure still runs exactly once. -/
theorem claim4_encode_failure :
    ∀ (ty : OperatorType) (lease : LeaseStatus),
    (canBypassPropose ty = false ∨ lease = LeaseStatus.leaseNotReady
      ∨ lease = LeaseStatus.leaseDisabled) →
    propose ty true lease false
      = ⟨some MetaStatusCode.UNKNOWN_ERROR, 1, 0, 0, 1, false⟩ := by
  intro ty lease h
  rcases h with h | h | h
  · simp [propose, h]
  · subst h
    cases hb : canBypassPropose ty <;>
      simp [propose, hb, isLeaseLeader, isLeaseExpired]
  · subst h
    cases hb : canBypassPropose ty <;>
      simp [propose, hb, isLeaseLeader, isLeaseExpired]

/-- Witness for claim C4 at CreatePartition (the spec scenario), whose
CanBypassPropose is false. -/
theorem claim4_witness :
    propose OperatorType.CreatePartition true LeaseStatus.leaseLeader false
      = ⟨some MetaStatusCode.UNKNOWN_ERROR, 1, 0, 0, 1, false⟩ :=
  claim4_encode_failure OperatorType.CreatePartition LeaseStatus.leaseLeader (Or.inl rfl)

/-- Counterexample to claim C5: the OPERATOR_ON_APPLY body shared by the
lease-fast-path read operators does call UpdateAppliedIndex on the fast
path; at GetInode with applied index 5 and metastore result OK the call
count is 1, refuting the claimed count of 0. -/
theorem claim5_cex :
    (fastApplyOnApply OperatorType.GetInode updateAppliedIndexSpec ⟨5⟩
        MetaStatusCode.OK).updateCalls = 1
    ∧ ¬ (fastApplyOnApply OperatorType.GetInode updateAppliedIndexSpec ⟨5⟩
        MetaStatusCode.OK).updateCalls = 0 := by
  decide

/-- Claim C5 amended: on the fast path the read operators GetDentry,
ListDentry, GetInode, BatchGetInodeAttr and BatchGetXAttr do call
UpdateAppliedIndex, but with the applied index sampled from the node at
enqueue time, so under the spec-modelled max update the node applied
index value is left unchanged and the response applied index is stamped
from what the node currently reports; the closure runs once. -/
theorem claim5_fastpath_update :
    ∀ (ty : OperatorType) (st : NodeState), isLeaseReadMacroOp ty = true →
    (fastApplyOnApply ty updateAppliedIndexSpec st MetaStatusCode.OK).updateCalls = 1
    ∧ (fastApplyOnApply ty updateAppliedIndexSpec st MetaStatusCode.OK).node = st
    ∧ (fastApplyOnApply ty updateAppliedIndexSpec st MetaStatusCode.OK).appliedindexField
        = some st.appliedIndex
    ∧ (fastApplyOnApply ty updateAppliedIndexSpec st MetaStatusCode.OK).doneRuns = 1 := by
  intro ty st _
  obtain ⟨n⟩ := st
  simp [fastApplyOnApply, operatorOnApply, updateAppliedIndexSpec]

/-- Witness for the amended claim C5 at GetDentry with applied index 3. -/
theorem claim5_witness :
    (fastApplyOnApply OperatorType.GetDentry updateAppliedIndexSpec ⟨3⟩
        MetaStatusCode.OK).updateCalls = 1
    ∧ (fastApplyOnApply OperatorType.GetDentry updateAppliedIndexSpec ⟨3⟩
        MetaStatusCode.OK).node = ⟨3⟩
    ∧ (fastApplyOnApply OperatorType.GetDentry updateAppliedIndexSpec ⟨3⟩
        MetaStatusCode.OK).appliedindexField = some 3
    ∧ (fastApplyOnApply OperatorType.GetDentry updateAppliedIndexSpec ⟨3⟩
        MetaStatusCode.OK).doneRuns = 1 :=
  claim5_fastpath_update OperatorType.GetDentry ⟨3⟩ rfl

/-- Claim C6: for GetVolumeExtent with streaming requested, metastore
result OK and a successful stream accept, the slice list is moved out of
the response (left empty), and the done closure runs before any extent
is pushed on the stream; a failed stream accept instead sets
RPC_STREAM_ERROR on the response and pushes nothing. -/
theorem claim6_gve_streaming :
    ∀ (index : Nat) (mslices : List Nat),
    (gveOnApply index MetaStatusCode.OK mslices true true).resp.slices = []
    ∧ (gveOnApply index MetaStatusCode.OK mslices true true).resp.appliedindex
        = some index
    ∧ (gveOnApply index MetaStatusCode.OK mslices true true).events
        = GVEEvent.doneRun :: mslices.map GVEEvent.streamPush
    ∧ (gveOnApply index MetaStatusCode.OK mslices true false).resp.statuscode
        = MetaStatusCode.RPC_STREAM_ERROR
    ∧ (gveOnApply index MetaStatusCode.OK mslices true false).resp.slices = []
    ∧ (gveOnApply index MetaStatusCode.OK mslices true false).events
        = [GVEEvent.doneRun] := by
  intro index mslices
  refine ⟨?_, ?_, ?_, ?_, ?_, ?_⟩ <;> simp [gveOnApply]

/-- Claim C7: over a retry sequence of any finite number n of failure
return codes followed by one success, the UploadFile completion callback
removes the staged file exactly once, frees the owned buffer exactly
once, signals the barrier exactly once when one was given, and
re-submitted the same context exactly n times. -/
theorem claim7_upload_retry :
    ∀ (n : Nat) (hasBarrier : Bool),
    uploadCallbackRun hasBarrier (List.replicate n (-1) ++ [0])
      = ⟨1, 1, if hasBarrier then 1 else 0, n⟩ := by
  intro n hasBarrier
  induction n with
  | zero => simp [uploadCallbackRun]
  | succ m ih => simp [List.replicate_succ, uploadCallbackRun, ih]

/-- Counterexample to claim C8: the buffer ReadFile allocates is not
zero-initialized: for a length-1 file it is one cell holding byte 48
(the character digit-zero passed to memset) followed by an uninitialized
cell, not two zero bytes, and the buffer returned on success still
carries the uninitialized final cell. -/
theorem claim8_cex :
    readFileInitBuffer 1 ≠ List.replicate 2 (some 0)
    ∧ readFileInitBuffer 1 = [some 48, none]
    ∧ (readFile ⟨true, true, [7], true, true, true, some 1⟩).buf
        = some [some 7, none] := by
  decide

/-- Claim C8 amended: ReadFile stats the file for its size, allocates a
buffer of size len plus one whose first len cells memset fills with byte
48 (the character digit-zero) leaving the final cell uninitialized,
reads exactly len bytes over it, treats a short read as an error that
frees the buffer and returns -1, and on success returns the buffer (the
file content followed by the uninitialized cell) and the size. -/
theorem claim8_readfile :
    ∀ (env : ReadEnv),
    env.fileExists = true → env.statOk = true → env.openOk = true →
    env.mallocOk = true → env.memsetOk = true →
    (readFileInitBuffer env.content.length).length = env.content.length + 1
    ∧ (readFileInitBuffer env.content.length).take env.content.length
        = List.replicate env.content.length (some 48)
    ∧ (env.readLen = some env.content.length →
        readFile env = ⟨0, some (env.content.map some ++ [none]),
          some env.content.length, 0, 1⟩)
    ∧ (∀ k, env.readLen = some k → k < env.content.length →
        readFile env = ⟨-1, none, some env.content.length, 1, 1⟩) := by
  intro env h1 h2 h3 h4 h5
  obtain ⟨fe, so, c, oo, mo, me, rl⟩ := env
  simp only at h1 h2 h3 h4 h5
  subst h1 h2 h3 h4 h5
  refine ⟨?_, ?_, ?_, ?_⟩
  · simp [readFileInitBuffer]
  · simp [readFileInitBuffer, List.take_append, List.take_replicate]
  · intro hr
    simp only at hr
    subst hr
    simp [readFile, readOverwrite, readFileInitBuffer, List.drop_append]
  · intro k hr hk
    simp only at hr
    subst hr
    simp [readFile, Nat.min_eq_left (Nat.le_of_lt hk), hk]

/-- Witness for the amended claim C8 at a two-byte file read fully. -/
theorem claim8_witness :
    readFile ⟨true, true, [7, 9], true, true, true, some 2⟩
      = ⟨0, some [some 7, some 9, none], some 2, 0, 1⟩ := by
  have h := (claim8_readfile ⟨true, true, [7, 9], true, true, true, some 2⟩
    rfl rfl rfl rfl rfl).2.2.1 rfl
  simpa using h

/-- Counterexample to claim C9: on a tree with a dot-prefixed regular
file and a regular file inside a subdirectory, the embedded enumeration
yields only the bare basename of the nested file, while the claimed
enumeration (skip exactly dot and dot-dot, record full relative paths)
would yield the dot-prefixed file and the slash-qualified path. -/
theorem claim9_cex :
    listEntries exTree = some ["f"]
    ∧ listEntriesClaim "" exTree = [".hidden", "sub/f"]
    ∧ listEntries exTree ≠ some (listEntriesClaim "" exTree) := by
  have h1 : listEntries exTree = some ["f"] := by
    simp [listEntries, exTree, entrySkipped, startsWithDot, startsWithDotDot]
  have h2 : listEntriesClaim "" exTree = [".hidden", "sub/f"] := by
    simp [listEntriesClaim, exTree]
  refine ⟨h1, h2, ?_⟩
  rw [h1, h2]
  decide

/-- Claim C9 amended: the enumeration skips every entry whose name
begins with a dot (not only dot and dot-dot), collects regular files
only, and records each collected file under its bare d_name (basename),
never a relative path: every collected name is the basename of a
regular-file entry reachable without passing a dot-prefixed entry. -/
theorem claim9_enumeration :
    (∀ (name : String) (sub : FsTree) (rest : List (String × FsTree)),
       entrySkipped name = true →
       listEntries ((name, sub) :: rest) = listEntries rest)
    ∧ (∀ (name : String) (rest : List (String × FsTree)),
       entrySkipped name = false →
       listEntries ((name, FsTree.file) :: rest)
         = Option.map (fun xs => name :: xs) (listEntries rest))
    ∧ (∀ (l : List (String × FsTree)) (ns : List String),
       listEntries l = some ns → ∀ x, x ∈ ns → hasRegularBasename x l = true) := by
  refine ⟨?_, ?_, listEntries_sound⟩
  · intro name sub rest h
    cases sub <;> rw [listEntries, if_pos h]
  · intro name rest h
    rw [listEntries, if_neg (by simp [h])]

/-- Witness for the amended claim C9: a dot-dot entry is skipped on the
example tree, and the collected name f is a reachable regular-file
basename. -/
theorem claim9_witness :
    listEntries (("..", FsTree.file) :: exTree) = listEntries exTree
    ∧ hasRegularBasename "f" exTree = true := by
  obtain ⟨hskip, hfile, hsound⟩ := claim9_enumeration
  refine ⟨hskip ".." FsTree.file exTree (by decide), hsound exTree ["f"] ?_ "f" ?_⟩
  · simp [listEntries, exTree, entrySkipped, startsWithDot, startsWithDotDot]
  · simp

/-- Claim C10: GetUploadFile never clears the output list: on an empty
queue it returns 0 leaving the output list untouched; with a non-empty
inode filter it appends the matching names to the existing output list
and returns the total size of that list (the number drained only if the
output list started empty); with an empty filter it swaps the two lists,
so the prior output contents become the new pending queue. -/
theorem claim10_get_upload_file :
    ∀ (vno : String → String → Bool) (inode : String) (queue out : List String),
    (queue = [] → getUploadFile vno inode queue out = ⟨0, [], out⟩)
    ∧ (queue ≠ [] → inode ≠ "" →
        (getUploadFile vno inode queue out).out
            = out ++ queue.filter (fun f => vno inode f)
        ∧ (getUploadFile vno inode queue out).ret
            = (out ++ queue.filter (fun f => vno inode f)).length
        ∧ (getUploadFile vno inode queue out).queue
            = queue.filter (fun f => !(vno inode f))
        ∧ (out = [] → (getUploadFile vno inode queue out).ret
            = (queue.filter (fun f => vno inode f)).length))
    ∧ (queue ≠ [] → inode = "" →
        getUploadFile vno inode queue out = ⟨queue.length, out, queue⟩) := by
  intro vno inode queue out
  refine ⟨?_, ?_, ?_⟩
  · intro h
    subst h
    simp [getUploadFile]
  · intro hq hi
    have e : getUploadFile vno inode queue out
        = ⟨(out ++ queue.filter (fun f => vno inode f)).length,
           queue.filter (fun f => !(vno inode f)),
           out ++ queue.filter (fun f => vno inode f)⟩ := by
      simp [getUploadFile, hq, hi]
    rw [e]
    refine ⟨rfl, rfl, rfl, ?_⟩
    intro ho
    subst ho
    simp
  · intro hq hi
    subst hi
    simp [getUploadFile, hq]

/-- Witness for claim C10 with queue [m, n], output list [p] and a
filter matching m. -/
theorem claim10_witness :
    (getUploadFile (fun _ f => f == "m") "42" ["m", "n"] ["p"]).out = ["p", "m"]
    ∧ (getUploadFile (fun _ f => f == "m") "42" ["m", "n"] ["p"]).ret = 2
    ∧ (getUploadFile (fun _ f => f == "m") "42" ["m", "n"] ["p"]).queue = ["n"] := by
  obtain ⟨-, h2, -⟩ := claim10_get_upload_file (fun _ f => f == "m") "42" ["m", "n"] ["p"]
  obtain ⟨ho, hr, hq, -⟩ := h2 (by decide) (by decide)
  refine ⟨?_, ?_, ?_⟩
  · rw [ho]; decide
  · rw [hr]; decide
  · rw [hq]; decide
